import Mathlib

/-!
Verification development for the cloudflare-tunnel repository
(`db_config.py`, `external_db_access.py`, `tunnel_api.py`).

The Python source is shallowly embedded:
  * Python strings are `String`, Python floats are `Rat` (ideal arithmetic),
    Python dicts from the store are association lists.
  * The Redis server and the filesystem are oracles (`World`, `DocState`)
    passed explicitly; every store access is additionally logged as an `Op`
    so that "no store operation was performed" is a provable statement.
-/

/-- Model of Python `float(s)` restricted to the decimal forms that appear in
the stored data: optional surrounding whitespace, optional sign, an integer
part and/or a fractional part, and an optional decimal exponent.
Returns `none` exactly when Python's `float` would raise `ValueError` on such
inputs (special forms such as `inf`, `nan` and underscore separators are not
modelled). -/
def digitsVal (l : List Char) : Nat :=
  l.foldl (fun n c => 10 * n + (c.toNat - 48)) 0

def parseDigits (l : List Char) : Option Nat :=
  if l.isEmpty then none
  else if l.all Char.isDigit then some (digitsVal l) else none

def parseMantissa (l : List Char) : Option Rat :=
  match l.span Char.isDigit with
  | (ip, rest) =>
    match rest with
    | [] => if ip.isEmpty then none else some (digitsVal ip : Rat)
    | '.' :: frac =>
      if frac.all Char.isDigit && (!ip.isEmpty || !frac.isEmpty) then
        some ((digitsVal ip : Rat) + (digitsVal frac : Rat) / ((10 : Rat) ^ frac.length))
      else none
    | _ => none

def parseExpPart (l : List Char) : Option Int :=
  match l with
  | '+' :: d => (parseDigits d).map (fun n => (n : Int))
  | '-' :: d => (parseDigits d).map (fun n => -(n : Int))
  | d => (parseDigits d).map (fun n => (n : Int))

def pow10 (n : Int) : Rat :=
  if 0 ≤ n then ((10 : Rat) ^ n.toNat) else 1 / ((10 : Rat) ^ (-n).toNat)

def pyFloatCore (l : List Char) : Option Rat :=
  match l.span (fun c => !(c == 'e' || c == 'E')) with
  | (mant, []) => parseMantissa mant
  | (mant, _ :: expPart) =>
    match parseMantissa mant, parseExpPart expPart with
    | some m, some e => some (m * pow10 e)
    | _, _ => none

/-- Python `str.strip()` on characters (whitespace from both ends). -/
def pyStrip (l : List Char) : List Char :=
  ((l.dropWhile Char.isWhitespace).reverse.dropWhile Char.isWhitespace).reverse

def pyFloat? (s : String) : Option Rat :=
  match pyStrip s.data with
  | '+' :: rest => pyFloatCore rest
  | '-' :: rest => (pyFloatCore rest).map (fun q => -q)
  | l => pyFloatCore l

/-- Model of Python's `pat in s` substring test (`containsSub pat s.data`). -/
def containsSub (pat : List Char) : List Char → Bool
  | [] => pat.isPrefixOf ([] : List Char)
  | c :: cs => pat.isPrefixOf (c :: cs) || containsSub pat cs

def strContains (s pat : String) : Bool := containsSub pat.data s.data

/-- The characters of the option-key namespace `"option:"`. -/
def optPat : List Char := "option:".data

/-- Model of Python `key.replace("option:", "")`: left-to-right removal of
every (non-overlapping) occurrence of `"option:"`.  Implemented with a fuel
argument (the fuel is the unconsumed length, always sufficient) so that the
function stays structurally recursive and kernel-reducible. -/
def pyReplaceOptionAux : Nat → List Char → List Char
  | 0, _ => []
  | _ + 1, [] => []
  | n + 1, c :: cs =>
    if optPat.isPrefixOf (c :: cs) then pyReplaceOptionAux n (cs.drop 6)
    else c :: pyReplaceOptionAux n cs

def pyReplaceOption (l : List Char) : List Char :=
  pyReplaceOptionAux l.length l

/-- Lifting of `key.replace("option:", "")` to `String`. -/
def stripOptionAll (k : String) : String := ⟨pyReplaceOption k.data⟩

theorem pyReplaceOptionAux_congr :
    ∀ (n m : Nat) (l : List Char), l.length ≤ n → l.length ≤ m →
      pyReplaceOptionAux n l = pyReplaceOptionAux m l := by
  intro n
  induction n with
  | zero =>
    intro m l hn _
    have hl : l = [] := List.eq_nil_of_length_eq_zero (Nat.le_zero.mp hn)
    subst hl
    cases m <;> rfl
  | succ n ih =>
    intro m l hn hm
    match l, m with
    | [], 0 => rfl
    | [], _ + 1 => rfl
    | c :: cs, 0 => simp at hm
    | c :: cs, m + 1 =>
      simp only [pyReplaceOptionAux]
      by_cases hp : optPat.isPrefixOf (c :: cs)
      · rw [if_pos hp, if_pos hp]
        refine ih m (cs.drop 6) ?_ ?_ <;> · simp only [List.length_drop]
                                            simp at hn hm
                                            omega
      · rw [if_neg hp, if_neg hp]
        have := ih m cs (by simp at hn; omega) (by simp at hm; omega)
        rw [this]

theorem pyReplaceOption_nil : pyReplaceOption [] = [] := rfl

theorem pyReplaceOption_cons (c : Char) (cs : List Char) :
    pyReplaceOption (c :: cs) =
      if optPat.isPrefixOf (c :: cs) then pyReplaceOption (cs.drop 6)
      else c :: pyReplaceOption cs := by
  show pyReplaceOptionAux (cs.length + 1) (c :: cs) = _
  simp only [pyReplaceOptionAux]
  by_cases hp : optPat.isPrefixOf (c :: cs)
  · rw [if_pos hp, if_pos hp]
    exact pyReplaceOptionAux_congr cs.length (cs.drop 6).length (cs.drop 6)
      (by simp only [List.length_drop]; omega) le_rfl
  · rw [if_neg hp, if_neg hp]
    rfl

theorem isPrefixOf_append_self (p t : List Char) : p.isPrefixOf (p ++ t) = true := by
  induction p with
  | nil => simp [List.isPrefixOf]
  | cons a as ih => simp [List.isPrefixOf, ih]

/-- Removing the leading `"option:"` namespace continues scanning the rest of
the key, so every later occurrence inside the symbol is removed as well. -/
theorem pyReplaceOption_drop_leading (l : List Char) :
    pyReplaceOption (optPat ++ l) = pyReplaceOption l := by
  have h : optPat ++ l = 'o' :: (['p', 't', 'i', 'o', 'n', ':'] ++ l) := rfl
  rw [h, pyReplaceOption_cons]
  have hp : optPat.isPrefixOf ('o' :: (['p', 't', 'i', 'o', 'n', ':'] ++ l)) = true := by
    have := isPrefixOf_append_self optPat l
    simpa [h] using this
  rw [if_pos hp]
  rfl

theorem pyReplaceOption_length_le (l : List Char) :
    (pyReplaceOption l).length ≤ l.length := by
  have main : ∀ (n : Nat) (l : List Char), l.length ≤ n →
      (pyReplaceOption l).length ≤ l.length := by
    intro n
    induction n with
    | zero =>
      intro l h
      have hl : l = [] := List.eq_nil_of_length_eq_zero (Nat.le_zero.mp h)
      subst hl; simp [pyReplaceOption_nil]
    | succ n ih =>
      intro l h
      match l with
      | [] => simp [pyReplaceOption_nil]
      | c :: cs =>
        rw [pyReplaceOption_cons]
        by_cases hp : optPat.isPrefixOf (c :: cs)
        · rw [if_pos hp]
          have h1 := ih (cs.drop 6) (by simp only [List.length_drop]; simp at h; omega)
          simp only [List.length_drop] at h1
          simp only [List.length_cons]
          omega
        · rw [if_neg hp]
          have h1 := ih cs (by simp at h; omega)
          simp only [List.length_cons]
          omega
  exact main l.length l le_rfl

theorem isPrefixOf_length_le {p l : List Char} (h : p.isPrefixOf l = true) :
    p.length ≤ l.length := by
  have := List.isPrefixOf_iff_prefix.mp h
  exact this.length_le

theorem pyReplaceOption_length_lt (l : List Char)
    (h : containsSub optPat l = true) :
    (pyReplaceOption l).length < l.length := by
  have main : ∀ (n : Nat) (l : List Char), l.length ≤ n →
      containsSub optPat l = true →
      (pyReplaceOption l).length < l.length := by
    intro n
    induction n with
    | zero =>
      intro l hn hc
      have hl : l = [] := List.eq_nil_of_length_eq_zero (Nat.le_zero.mp hn)
      subst hl; simp [containsSub, List.isPrefixOf, optPat] at hc
    | succ n ih =>
      intro l hn hc
      match l with
      | [] => simp [containsSub, List.isPrefixOf, optPat] at hc
      | c :: cs =>
        rw [pyReplaceOption_cons]
        by_cases hp : optPat.isPrefixOf (c :: cs)
        · rw [if_pos hp]
          have hlen : (7 : Nat) ≤ cs.length + 1 := by
            have := isPrefixOf_length_le hp
            simpa [optPat] using this
          have h1 := pyReplaceOption_length_le (cs.drop 6)
          simp only [List.length_drop] at h1
          simp only [List.length_cons]
          omega
        · rw [if_neg hp]
          have hc' : containsSub optPat cs = true := by
            simp only [containsSub, Bool.or_eq_true] at hc
            rcases hc with hc | hc
            · exact absurd hc hp
            · exact hc
          have h1 := ih cs (by simp at hn; omega) hc'
          simp only [List.length_cons]
          omega
  exact main l.length l le_rfl h

theorem pyReplaceOption_of_not_contains (l : List Char)
    (h : containsSub optPat l = false) :
    pyReplaceOption l = l := by
  have main : ∀ (n : Nat) (l : List Char), l.length ≤ n →
      containsSub optPat l = false → pyReplaceOption l = l := by
    intro n
    induction n with
    | zero =>
      intro l hn _
      have hl : l = [] := List.eq_nil_of_length_eq_zero (Nat.le_zero.mp hn)
      subst hl; rfl
    | succ n ih =>
      intro l hn hc
      match l with
      | [] => rfl
      | c :: cs =>
        simp only [containsSub, Bool.or_eq_false_iff] at hc
        rw [pyReplaceOption_cons, if_neg (by simp [hc.1])]
        rw [ih cs (by simp at hn; omega) hc.2]
  exact main l.length l le_rfl h

theorem pyReplaceOption_eq_self_iff (l : List Char) :
    pyReplaceOption l = l ↔ containsSub optPat l = false := by
  constructor
  · intro h
    by_contra hc
    have hc' : containsSub optPat l = true := by
      cases hx : containsSub optPat l
      · exact absurd hx hc
      · rfl
    have := pyReplaceOption_length_lt l hc'
    rw [h] at this
    omega
  · exact pyReplaceOption_of_not_contains l

/-- A parsed record value: `'symbol'` maps to a string, every other stored
field to a (coerced) float. -/
inductive Value where
  | str (s : String)
  | num (q : Rat)
deriving DecidableEq, Repr

/-- The fixed list of known numeric fields of `_parse_option_data`
(`external_db_access.py`, lines 237-242). -/
def float_fields : List String :=
  ["last_price", "mark_price", "index_price", "mark_iv",
   "underlying_price", "bid_price", "ask_price", "open_interest",
   "volume_24h", "turnover_24h", "delta", "gamma", "theta", "vega",
   "bid_size", "ask_size", "bid_iv", "ask_iv"]

/-- Conversion `float(data[field])` with the `except` fallback to `0.0`. -/
def floatVal (v : String) : Value :=
  match pyFloat? v with
  | some q => Value.num q
  | none => Value.num 0

/-- Embedding of `OptionsDatabase._parse_option_data` (`external_db_access.py` 229-258):
empty input gives an empty record; otherwise the record holds `'symbol'`
(defaulted to `""`), then each numeric field that is present in the raw map
(coerced via `floatVal`), then `'timestamp'` if present. Fields absent from
the raw map are absent from the record. -/
def _parse_option_data (data : List (String × String)) : List (String × Value) :=
  if data.isEmpty then []
  else
    ("symbol", Value.str ((data.lookup "symbol").getD ""))
      :: (float_fields.filterMap
            (fun field => (data.lookup field).map (fun v => (field, floatVal v))))
      ++ (match data.lookup "timestamp" with
          | none => []
          | some v => [("timestamp", floatVal v)])

theorem lookup_cons {α : Type} (a k : String) (b : α) (rest : List (String × α)) :
    ((a, b) :: rest).lookup k = if k = a then some b else rest.lookup k := by
  by_cases h : k = a
  · subst h
    simp [List.lookup]
  · have hb : (k == a) = false := beq_eq_false_iff_ne.mpr h
    simp [List.lookup, hb, h]

theorem lookup_append {α : Type} (l₁ l₂ : List (String × α)) (k : String) :
    (l₁ ++ l₂).lookup k = ((l₁.lookup k).or (l₂.lookup k)) := by
  induction l₁ with
  | nil => simp [List.lookup, Option.or]
  | cons p rest ih =>
    obtain ⟨a, b⟩ := p
    rw [List.cons_append, lookup_cons, lookup_cons]
    by_cases h : k = a
    · simp [h, Option.or]
    · simp [h, ih]

theorem lookup_keyed_filterMap (data : List (String × String)) (valOf : String → Value) :
    ∀ (L : List String) (k : String), k ∉ L →
      (L.filterMap (fun field => (data.lookup field).map (fun v => (field, valOf v)))).lookup k
        = none := by
  intro L
  induction L with
  | nil => intro k _; rfl
  | cons f rest ih =>
    intro k hk
    have hkf : k ≠ f := fun h => hk (h ▸ List.mem_cons_self f rest)
    have hkr : k ∉ rest := fun h => hk (List.mem_cons_of_mem f h)
    simp only [List.filterMap_cons]
    cases hd : data.lookup f with
    | none =>
      simp only [Option.map_none']
      exact ih k hkr
    | some v =>
      simp only [Option.map_some']
      rw [lookup_cons, if_neg hkf]
      exact ih k hkr

theorem lookup_keyed_filterMap_mem (data : List (String × String)) (valOf : String → Value) :
    ∀ (L : List String) (k : String), L.Nodup → k ∈ L →
      (L.filterMap (fun field => (data.lookup field).map (fun v => (field, valOf v)))).lookup k
        = (data.lookup k).map valOf := by
  intro L
  induction L with
  | nil => intro k _ hk; simp at hk
  | cons f rest ih =>
    intro k hnd hk
    have hf : f ∉ rest := (List.nodup_cons.mp hnd).1
    have hr : rest.Nodup := (List.nodup_cons.mp hnd).2
    simp only [List.filterMap_cons]
    cases hd : data.lookup f with
    | none =>
      simp only [Option.map_none']
      rcases List.mem_cons.mp hk with hkf | hkr
      · subst hkf
        rw [lookup_keyed_filterMap data valOf rest k hf, hd]
        rfl
      · exact ih k hr hkr
    | some v =>
      simp only [Option.map_some']
      rw [lookup_cons]
      by_cases hkf : k = f
      · subst hkf
        rw [if_pos rfl, hd]
        rfl
      · rw [if_neg hkf]
        have hkr : k ∈ rest := by
          rcases List.mem_cons.mp hk with h | h
          · exact absurd h hkf
          · exact h
        exact ih k hr hkr

-- ==================== db_config.py ====================

/-- One Redis connection-parameter dict.  The Python dicts carry two extra
keys that no claim touches and that are constant across all candidates
(`socket_keepalive_options = {}` everywhere it appears); a key that is
absent from a given dict is modelled as `none`, and an absent `password`
key is conflated with `password = None` (the source never distinguishes
the two). -/
structure RedisParams where
  host : String
  port : Int
  db : Int
  password : Option String
  socket_timeout : Int
  socket_connect_timeout : Option Int
  socket_keepalive : Option Bool
  decode_responses : Bool
  max_connections : Option Int
deriving DecidableEq, Repr

/-- Embedding of `RedisConfig.DEFAULT_SETTINGS` (`db_config.py` 14-25). -/
def DEFAULT_SETTINGS : RedisParams :=
  { host := "localhost", port := 6380, db := 0, password := none,
    socket_timeout := 5, socket_connect_timeout := some 5,
    socket_keepalive := some true, decode_responses := true,
    max_connections := some 10 }

/-- The process environment as read by `get_connection_params`:
`redisHost`/`redisPassword` are `os.getenv` results (absent = `none`),
`redisPort`/`redisDb` are `int(os.getenv(X, '0'))`, i.e. already-parsed
integers with `0` standing for "unset" (the `or None` in the source maps
`0` back to `None`; a non-integer environment value, which would raise in
`int()`, is outside the model). -/
structure EnvVars where
  redisHost : Option String := none
  redisPort : Int := 0
  redisDb : Int := 0
  redisPassword : Option String := none
deriving DecidableEq, Repr

/-- Caller keyword overrides (`**overrides` of `get_connection_params`),
restricted to the keys the repository actually passes or that the claims
quantify over. -/
structure Overrides where
  host : Option String := none
  port : Option Int := none
  db : Option Int := none
  password : Option (Option String) := none
  socket_timeout : Option Int := none
deriving DecidableEq, Repr

/-- Embedding of `RedisConfig.get_connection_params` (`db_config.py` 27-56): defaults,
then non-`None` environment overrides, then caller overrides. -/
def get_connection_params (env : EnvVars) (ov : Overrides) : RedisParams :=
  let p0 := DEFAULT_SETTINGS
  let p1 : RedisParams :=
    { p0 with
      host := env.redisHost.getD p0.host,
      port := if env.redisPort ≠ 0 then env.redisPort else p0.port,
      db := if env.redisDb ≠ 0 then env.redisDb else p0.db,
      password := match env.redisPassword with
        | some pw => some pw
        | none => p0.password }
  { p1 with
    host := ov.host.getD p1.host,
    port := ov.port.getD p1.port,
    db := ov.db.getD p1.db,
    password := ov.password.getD p1.password,
    socket_timeout := ov.socket_timeout.getD p1.socket_timeout }

/-- Embedding of `RedisConfig.is_docker_setup` (`db_config.py` 73-76): compares the
class-level default port, not the resolved one. -/
def is_docker_setup : Bool := DEFAULT_SETTINGS.port == 6380

/-- The literal third fallback dict (`db_config.py` 91-97). -/
def thirdFallback : RedisParams :=
  { host := "localhost", port := 6379, db := 0, password := none,
    socket_timeout := 2, socket_connect_timeout := none,
    socket_keepalive := none, decode_responses := true,
    max_connections := none }

/-- Embedding of `RedisConfig.get_fallback_configs` (`db_config.py` 79-99). -/
def get_fallback_configs (env : EnvVars) : List RedisParams :=
  [get_connection_params env {}, get_connection_params env { port := some 6379 }]
    ++ (if is_docker_setup then [thirdFallback] else [])

-- ==================== external_db_access.py: store client ====================

/-- Store operations, recorded so that "no store operation happened" is a
provable statement.  `connect` stands for `redis.Redis(**config)` plus the
probe `client.ping()` of `_try_connect`; `ping` for a liveness probe on an
already-held handle. -/
inductive Op where
  | connect (c : RedisParams)
  | ping (h : Nat)
  | keys (h : Nat) (pattern : String)
  | hgetall (h : Nat) (key : String)
deriving DecidableEq, Repr

/-- The behaviour of the backing store, as an oracle.  Connection handles
are abstract naturals; `tryConn c = some h` means creating a client with
config `c` and pinging it succeeds and yields handle `h`, `none` means the
attempt raises.  `keys`/`hgetall` return `.error ()` when the underlying
call raises. -/
structure World where
  tryConn : RedisParams → Option Nat
  ping : Nat → Bool
  keys : Nat → String → Except Unit (List String)
  hgetall : Nat → String → Except Unit (List (String × String))

/-- The mutable state of an `OptionsDatabase` instance. -/
structure DBState where
  redis_client : Option Nat
  connection_params : RedisParams
deriving DecidableEq, Repr

/-- Embedding of `OptionsDatabase._try_connect` (55-64): on success the new handle is
stored; on failure the state is left untouched and `False` is returned. -/
def _try_connect (w : World) (st : DBState) (config : RedisParams) :
    (Bool × DBState) × List Op :=
  match w.tryConn config with
  | some h => ((true, { st with redis_client := some h }), [Op.connect config])
  | none => ((false, st), [Op.connect config])

/-- The fallback loop of `_connect` (46-50): try each config in order; the
first success stores the handle and makes that config the active
`connection_params`. -/
def connectFallbacks (w : World) (st : DBState) :
    List RedisParams → (Bool × DBState) × List Op
  | [] => ((false, st), [])
  | c :: cs =>
    let r := _try_connect w st c
    if r.1.1 then ((true, { r.1.2 with connection_params := c }), r.2)
    else
      let rest := connectFallbacks w st cs
      ((rest.1.1, rest.1.2), r.2 ++ rest.2)

/-- Embedding of `OptionsDatabase._connect` (32-53): primary config first, then the
fallback list from `RedisConfig.get_fallback_configs()` (which re-reads the
environment and takes no caller overrides). -/
def _connect (w : World) (env : EnvVars) (st : DBState) :
    (Bool × DBState) × List Op :=
  let r := _try_connect w st st.connection_params
  if r.1.1 then ((true, r.1.2), r.2)
  else
    let rest := connectFallbacks w st (get_fallback_configs env)
    ((rest.1.1, rest.1.2), r.2 ++ rest.2)

/-- Embedding of `OptionsDatabase.reconnect` (76-79): logs and re-runs `_connect`. -/
def reconnect (w : World) (env : EnvVars) (st : DBState) :
    (Bool × DBState) × List Op :=
  _connect w env st

/-- Embedding of `OptionsDatabase.is_connected` (66-74): no handle, or a failing ping,
yields `False`; never throws. -/
def is_connected (w : World) (st : DBState) : Bool × List Op :=
  match st.redis_client with
  | none => (false, [])
  | some h => (w.ping h, [Op.ping h])

/-- Embedding of `OptionsDatabase.__init__` (21-30) / `connect_to_database` (272-279):
fresh state with the resolved connection parameters, then `_connect`. -/
def connect_to_database (w : World) (env : EnvVars) (ov : Overrides) :
    DBState × List Op :=
  let st0 : DBState :=
    { redis_client := none, connection_params := get_connection_params env ov }
  let c := _connect w env st0
  (c.1.2, c.2)

-- ==================== external_db_access.py: query engine ====================

/-- Embedding of `OptionsDatabase.get_option` (83-102).  The `if not self.is_connected()`
guard is inlined: `redis_client is None`, or a failing ping, short-circuits
to the empty record; then `hgetall(f"option:{symbol}")` is issued, any
exception yields the empty record, and an empty hash is returned as-is
(`_parse_option_data(data) if data else {}`). -/
def get_option (w : World) (st : DBState) (symbol : String) :
    List (String × Value) × List Op :=
  match st.redis_client with
  | none => ([], [])
  | some h =>
    if w.ping h = false then ([], [Op.ping h])
    else
      match w.hgetall h ("option:" ++ symbol) with
      | .error _ => ([], [Op.ping h, Op.hgetall h ("option:" ++ symbol)])
      | .ok data =>
        ((if data.isEmpty then [] else _parse_option_data data),
         [Op.ping h, Op.hgetall h ("option:" ++ symbol)])

/-- Embedding of `OptionsDatabase.get_all_symbols` (104-124), with the same inlined
connectivity guard.  An `asset` argument models Python's optional
parameter, and `if asset` truthiness makes the empty string fall back to
the `"option:*"` pattern.  Every matching key then has all occurrences of
`"option:"` removed (`key.replace("option:", "")`). -/
def symbolPattern (asset : Option String) : String :=
  match asset with
  | some a => if a = "" then "option:*" else "option:" ++ a ++ "-*"
  | none => "option:*"

def get_all_symbols (w : World) (st : DBState) (asset : Option String) :
    List String × List Op :=
  match st.redis_client with
  | none => ([], [])
  | some h =>
    if w.ping h = false then ([], [Op.ping h])
    else
      match w.keys h (symbolPattern asset) with
      | .error _ => ([], [Op.ping h, Op.keys h (symbolPattern asset)])
      | .ok ks => (ks.map stripOptionAll, [Op.ping h, Op.keys h (symbolPattern asset)])

/-- The shared fetch loop of `get_options_by_asset` (139-143),
`get_options_by_expiry` (160-164) and `get_all_options` (221-224): fetch
each symbol and keep the non-empty records, in order. -/
def fetchAll (w : World) (st : DBState) :
    List String → List (List (String × Value)) × List Op
  | [] => ([], [])
  | s :: rest =>
    let r := get_option w st s
    let q := fetchAll w st rest
    ((if r.1.isEmpty then q.1 else r.1 :: q.1), r.2 ++ q.2)

/-- Embedding of `OptionsDatabase.get_options_by_asset` (126-144). -/
def get_options_by_asset (w : World) (st : DBState) (asset : String) :
    List (List (String × Value)) × List Op :=
  let s := get_all_symbols w st (some asset)
  let f := fetchAll w st s.1
  (f.1, s.2 ++ f.2)

/-- Embedding of `OptionsDatabase.get_all_options` (217-225). -/
def get_all_options (w : World) (st : DBState) :
    List (List (String × Value)) × List Op :=
  let s := get_all_symbols w st none
  let f := fetchAll w st s.1
  (f.1, s.2 ++ f.2)

/-- Embedding of `OptionsDatabase.get_options_by_expiry` (146-166): list symbols
(optionally asset-filtered), keep those containing the literal substring
`-{expiry}-`, then fetch each survivor.  Filtering before the fetch loop is
the same per-symbol check the source does inside its loop, and skipped
symbols produce no store traffic. -/
def get_options_by_expiry (w : World) (st : DBState) (expiry : String)
    (asset : Option String) : List (List (String × Value)) × List Op :=
  let s := get_all_symbols w st asset
  let filtered := s.1.filter (fun sym => strContains sym ("-" ++ expiry ++ "-"))
  let f := fetchAll w st filtered
  (f.1, s.2 ++ f.2)

/-- Read `float(opt.get(field, 0))` on a parsed record: the mapper stores every
numeric field as a `Value.num`, and an absent field defaults to `0`.  (On a
`Value.str`, which the mapper only produces for `'symbol'`, the model
coerces like `float(str)` with default `0`; that branch is unreachable for
the numeric fields this is applied to.) -/
def recFloat (opt : List (String × Value)) (field : String) : Rat :=
  match opt.lookup field with
  | some (.num q) => q
  | some (.str s) => (pyFloat? s).getD 0
  | none => 0

/-- Embedding of `OptionsDatabase.get_high_volume_options` (207-210): source records from
`get_options_by_asset(asset)` when `asset` is truthy, else
`get_all_options()`, then keep records with `volume_24h >= min_volume`. -/
def get_high_volume_options (w : World) (st : DBState) (min_volume : Rat)
    (asset : Option String) : List (List (String × Value)) × List Op :=
  let src := match asset with
    | some a => if a = "" then get_all_options w st else get_options_by_asset w st a
    | none => get_all_options w st
  (src.1.filter (fun opt => min_volume ≤ recFloat opt "volume_24h"), src.2)

-- ==================== tunnel_api.py ====================

/-- One element of the `allowed` sequence of `allowed_tickers.json`; the
source reads both keys with `item.get(key, '')`, so either may be absent. -/
structure AllowEntry where
  asset : Option String := none
  expiry : Option String := none
deriving DecidableEq, Repr

/-- The state of the `allowed_tickers.json` file at call time: absent
(`FileNotFoundError`), undecodable (`json.JSONDecodeError`), or parsed.  A
decodable document without an `allowed` key is `ok []` (the source's
`config.get('allowed', [])`). -/
inductive DocState where
  | absent
  | malformed
  | ok (allowed : List AllowEntry)
deriving DecidableEq, Repr

/-- Embedding of `load_config` (`tunnel_api.py` 24-32), composed with the
`config.get('allowed', [])` read every caller performs. -/
def load_config (doc : DocState) : List AllowEntry :=
  match doc with
  | .absent => []
  | .malformed => []
  | .ok l => l

/-- Embedding of `is_allowed` (`tunnel_api.py` 34-40): scan for an entry whose `asset`
matches after upper-casing both sides and whose `expiry` matches exactly.
`String.toUpper` models Python `str.upper()` (faithful on the ASCII data
this system carries). -/
def is_allowed (doc : DocState) (asset expiry : String) : Bool :=
  (load_config doc).any (fun item =>
    ((item.asset.getD "").toUpper == asset.toUpper)
      && ((item.expiry.getD "") == expiry))

/-- Python's `round(x, 2)` on ideal reals: banker's rounding at the second
decimal (representation artifacts of binary floats are not modelled). -/
def roundHalfEven (x : Rat) : Int :=
  let f := x.floor
  let r := x - (f : Rat)
  if r < 1 / 2 then f
  else if 1 / 2 < r then f + 1
  else if f % 2 = 0 then f else f + 1

def round2 (x : Rat) : Rat := ((roundHalfEven (x * 100) : Int) : Rat) / 100

/-- Read `opt['symbol']` on a parsed record (always a string for mapper output). -/
def recSymbol (opt : List (String × Value)) : String :=
  match opt.lookup "symbol" with
  | some (.str s) => s
  | _ => ""

structure TickerSummary where
  total_options : Nat
  call_options : Nat
  put_options : Nat
  total_volume_24h : Rat
  total_open_interest : Rat
deriving DecidableEq, Repr

structure TickerBody where
  asset : String
  expiry : String
  summary : TickerSummary
  options : List (List (String × Value))
deriving DecidableEq, Repr

/-- The outcome of the `/ticker/{asset}/{expiry}` handler: an
`HTTPException` with its status code and detail, or a 200 body (the
wall-clock `timestamp` field is not modelled). -/
inductive TickerResult where
  | httpErr (code : Nat) (detail : String)
  | success (body : TickerBody)
deriving DecidableEq, Repr

/-- Embedding of `get_ticker` (`tunnel_api.py` 57-112).  The allow-list gate runs before
any database object is created; a rejected combination raises 404
immediately.  Otherwise a fresh client connects, a failed liveness check
raises `HTTPException(503)` — which the enclosing `except Exception` clause
converts into the generic 500 (`HTTPException` subclasses `Exception`) —
and an allowed, connected request queries by expiry and shapes the
summary. -/
def get_ticker (doc : DocState) (env : EnvVars) (w : World)
    (asset expiry : String) : TickerResult × List Op :=
  if is_allowed doc asset expiry = false then
    (.httpErr 404
      ("Ticker/date combination " ++ asset ++ "/" ++ expiry ++ " is not available"),
     [])
  else
    let c := connect_to_database w env {}
    let st := c.1
    let conn := is_connected w st
    if conn.1 = false then
      (.httpErr 500 "Error retrieving data: Database connection failed",
       c.2 ++ conn.2)
    else
      let q := get_options_by_expiry w st expiry (some asset)
      let options := q.1
      let total_volume := (options.map (fun o => recFloat o "volume_24h")).sum
      let total_oi := (options.map (fun o => recFloat o "open_interest")).sum
      let calls := options.filter (fun o => (recSymbol o).endsWith "-C")
      let puts := options.filter (fun o => (recSymbol o).endsWith "-P")
      (.success
        { asset := asset.toUpper, expiry := expiry,
          summary :=
            { total_options := options.length,
              call_options := calls.length,
              put_options := puts.length,
              total_volume_24h := round2 total_volume,
              total_open_interest := round2 total_oi },
          options := options },
       c.2 ++ conn.2 ++ q.2)

-- ==================== helper lemmas ====================

theorem get_option_ops_hgetall (w : World) (st : DBState) (s : String)
    (hdl : Nat) (k : String) (h : Op.hgetall hdl k ∈ (get_option w st s).2) :
    k = "option:" ++ s := by
  unfold get_option at h
  split at h
  · simp at h
  · split at h
    · simp at h
    · split at h
      · simp at h
        exact h.2
      · simp at h
        exact h.2

theorem get_all_symbols_no_hgetall (w : World) (st : DBState)
    (asset : Option String) (hdl : Nat) (k : String) :
    Op.hgetall hdl k ∉ (get_all_symbols w st asset).2 := by
  unfold get_all_symbols
  split
  · simp
  · split
    · simp
    · split
      · simp
      · simp

theorem fetchAll_mem (w : World) (st : DBState) :
    ∀ (syms : List String) (opt : List (String × Value)),
      opt ∈ (fetchAll w st syms).1 →
      ∃ s ∈ syms, opt = (get_option w st s).1 ∧ opt ≠ [] := by
  intro syms
  induction syms with
  | nil => intro opt h; simp [fetchAll] at h
  | cons s rest ih =>
    intro opt h
    simp only [fetchAll] at h
    by_cases he : (get_option w st s).1.isEmpty
    · rw [if_pos he] at h
      obtain ⟨s', hs', h1, h2⟩ := ih opt h
      exact ⟨s', List.mem_cons_of_mem s hs', h1, h2⟩
    · rw [if_neg he] at h
      rcases List.mem_cons.mp h with h | h
      · refine ⟨s, List.mem_cons_self s rest, h, ?_⟩
        subst h
        intro hnil
        rw [hnil] at he
        exact he rfl
      · obtain ⟨s', hs', h1, h2⟩ := ih opt h
        exact ⟨s', List.mem_cons_of_mem s hs', h1, h2⟩

theorem fetchAll_ops (w : World) (st : DBState) :
    ∀ (syms : List String) (hdl : Nat) (k : String),
      Op.hgetall hdl k ∈ (fetchAll w st syms).2 →
      ∃ s ∈ syms, k = "option:" ++ s := by
  intro syms
  induction syms with
  | nil => intro hdl k h; simp [fetchAll] at h
  | cons s rest ih =>
    intro hdl k h
    simp only [fetchAll] at h
    rcases List.mem_append.mp h with h | h
    · exact ⟨s, List.mem_cons_self s rest, get_option_ops_hgetall w st s hdl k h⟩
    · obtain ⟨s', hs', h1⟩ := ih hdl k h
      exact ⟨s', List.mem_cons_of_mem s hs', h1⟩

theorem fetchAll_complete (w : World) (st : DBState) :
    ∀ (syms : List String) (s : String), s ∈ syms →
      (get_option w st s).1.isEmpty = false →
      (get_option w st s).1 ∈ (fetchAll w st syms).1 := by
  intro syms
  induction syms with
  | nil => intro s h _; simp at h
  | cons s0 rest ih =>
    intro s hs hne
    simp only [fetchAll]
    rcases List.mem_cons.mp hs with h | h
    · subst h
      rw [if_neg (by rw [hne]; exact Bool.false_ne_true)]
      exact List.mem_cons_self _ _
    · by_cases he : (get_option w st s0).1.isEmpty
      · rw [if_pos he]
        exact ih s h hne
      · rw [if_neg he]
        exact List.mem_cons_of_mem _ (ih s h hne)

theorem get_all_symbols_empty_asset (w : World) (st : DBState) :
    get_all_symbols w st (some "") = get_all_symbols w st none := by
  unfold get_all_symbols
  rfl

theorem get_options_by_asset_empty (w : World) (st : DBState) :
    get_options_by_asset w st "" = get_all_options w st := by
  unfold get_options_by_asset get_all_options
  rw [get_all_symbols_empty_asset]

theorem float_fields_nodup : float_fields.Nodup := by decide

theorem symbol_not_mem_float_fields : "symbol" ∉ float_fields := by decide

theorem timestamp_not_mem_float_fields : "timestamp" ∉ float_fields := by decide

theorem parse_eq (data : List (String × String)) (hne : data.isEmpty = false) :
    _parse_option_data data =
      ("symbol", Value.str ((data.lookup "symbol").getD ""))
        :: (float_fields.filterMap
              (fun field => (data.lookup field).map (fun v => (field, floatVal v))))
        ++ (match data.lookup "timestamp" with
            | none => []
            | some v => [("timestamp", floatVal v)]) := by
  unfold _parse_option_data
  rw [if_neg (by rw [hne]; exact Bool.false_ne_true)]

theorem parse_lookup_float (data : List (String × String)) (field : String)
    (hne : data.isEmpty = false) (hf : field ∈ float_fields) :
    (_parse_option_data data).lookup field = (data.lookup field).map floatVal := by
  rw [parse_eq data hne, List.cons_append, lookup_cons]
  have h1 : field ≠ "symbol" := fun h => symbol_not_mem_float_fields (h ▸ hf)
  rw [if_neg h1, lookup_append,
    lookup_keyed_filterMap_mem data floatVal float_fields field float_fields_nodup hf]
  have h2 : field ≠ "timestamp" := fun h => timestamp_not_mem_float_fields (h ▸ hf)
  cases hts : data.lookup "timestamp" with
  | none =>
    cases data.lookup field <;> simp [Option.or]
  | some v =>
    rw [lookup_cons, if_neg h2]
    cases data.lookup field <;> simp [Option.or, List.lookup]

theorem parse_lookup_timestamp (data : List (String × String)) (v : String)
    (hts : data.lookup "timestamp" = some v) :
    (_parse_option_data data).lookup "timestamp" = some (floatVal v) := by
  have hne : data.isEmpty = false := by
    cases data with
    | nil => simp [List.lookup] at hts
    | cons p rest => rfl
  rw [parse_eq data hne, List.cons_append, lookup_cons,
    if_neg (by decide : ("timestamp" : String) ≠ "symbol"),
    lookup_append,
    lookup_keyed_filterMap data floatVal float_fields "timestamp" timestamp_not_mem_float_fields,
    hts, lookup_cons, if_pos rfl]
  rfl

/-- C1 counterexample: on the non-empty raw map `{"symbol": "X"}` the field
`last_price` is absent from the raw map, and the mapper leaves it absent
from the record instead of setting it to `0.0` — the claimed default-on-
absence does not happen. -/
theorem c1_absent_field_cex :
    (_parse_option_data [("symbol", "X")]).lookup "last_price" ≠ some (Value.num 0) := by
  decide

/-- C1 (amended): for every raw field map, a known numeric field that is
present but unparsable is coerced to `0.0` (and `timestamp` to `0`); a
numeric field absent from the raw map is absent from the resulting record
(readers that default via `get` then see `0`); the mapper is total (never
raises) and a non-empty raw map always yields a non-empty (non-rejected)
record. -/
theorem c1_parse_defaults_amended :
    ∀ (data : List (String × String)) (field v : String),
      (field ∈ float_fields → data.lookup field = some v → pyFloat? v = none →
        (_parse_option_data data).lookup field = some (Value.num 0)) ∧
      (data.lookup "timestamp" = some v → pyFloat? v = none →
        (_parse_option_data data).lookup "timestamp" = some (Value.num 0)) ∧
      (field ∈ float_fields → data.lookup field = none →
        (_parse_option_data data).lookup field = none) ∧
      (data.isEmpty = false → _parse_option_data data ≠ []) := by
  intro data field v
  refine ⟨?_, ?_, ?_, ?_⟩
  · intro hf hl hpf
    have hne : data.isEmpty = false := by
      cases data with
      | nil => simp [List.lookup] at hl
      | cons p rest => rfl
    rw [parse_lookup_float data field hne hf, hl]
    simp [floatVal, hpf]
  · intro hts hpf
    rw [parse_lookup_timestamp data v hts]
    simp [floatVal, hpf]
  · intro hf hl
    by_cases hne : data.isEmpty = false
    · rw [parse_lookup_float data field hne hf, hl]
      rfl
    · have : data = [] := by
        cases data with
        | nil => rfl
        | cons p rest => exact absurd rfl hne
      subst this
      rfl
  · intro hne
    rw [parse_eq data hne]
    exact List.cons_ne_nil _ _

/-- C1 witness: concrete evaluations of the amended statement on the raw
map `{"symbol": "X", "last_price": "abc", "timestamp": "zzz"}`. -/
theorem c1_parse_defaults_amended_witness :
    (_parse_option_data
        [("symbol", "X"), ("last_price", "abc"), ("timestamp", "zzz")]).lookup "last_price"
      = some (Value.num 0) ∧
    (_parse_option_data
        [("symbol", "X"), ("last_price", "abc"), ("timestamp", "zzz")]).lookup "timestamp"
      = some (Value.num 0) ∧
    (_parse_option_data
        [("symbol", "X"), ("last_price", "abc"), ("timestamp", "zzz")]).lookup "mark_price"
      = none ∧
    _parse_option_data [("symbol", "X"), ("last_price", "abc"), ("timestamp", "zzz")] ≠ [] :=
  ⟨(c1_parse_defaults_amended _ "last_price" "abc").1 (by decide) (by decide) (by decide),
   (c1_parse_defaults_amended _ "last_price" "zzz").2.1 (by decide) (by decide),
   (c1_parse_defaults_amended _ "mark_price" "").2.2.1 (by decide) (by decide),
   (c1_parse_defaults_amended _ "mark_price" "").2.2.2 (by decide)⟩

/-- C2: `is_allowed(asset, expiry)` is true exactly when the current
document contains an entry whose `asset` matches case-insensitively
(upper-cased comparison) and whose `expiry` matches exactly; an absent or
undecodable document is treated as the empty allow-list, so every lookup
against it is false, and the function is total (never raises). -/
theorem c2_allow_gate :
    ∀ (l : List AllowEntry) (asset expiry : String),
      (is_allowed (DocState.ok l) asset expiry = true ↔
        ∃ it ∈ l, (it.asset.getD "").toUpper = asset.toUpper ∧
          it.expiry.getD "" = expiry) ∧
      (∀ a e : String,
        is_allowed DocState.absent a e = false ∧
        is_allowed DocState.malformed a e = false) := by
  intro l asset expiry
  constructor
  · simp [is_allowed, load_config, List.any_eq_true, Bool.and_eq_true]
  · intro a e
    exact ⟨rfl, rfl⟩

/-- C3 counterexample: with `REDIS_PORT=6379` in the environment the
resolved primary port is `6379`, not the containerized default `6380`, yet
`get_fallback_configs` still produces (at least) 3 candidates — refuting
"at least 3 exactly when the resolved primary port equals 6380". -/
theorem c3_fallback_cex :
    (get_connection_params { redisPort := 6379 } {}).port ≠ 6380 ∧
    3 ≤ (get_fallback_configs { redisPort := 6379 }).length := by
  decide

/-- C3 (amended): for every environment the candidate list of
`get_fallback_configs` has at least 2 — in fact always exactly 3 — entries:
the guard for the extra candidate is `is_docker_setup`, which compares the
class-level default port (a constant `6380`), not the resolved primary
port, so it holds irrespective of environment and caller overrides.  The
extra third candidate uses the conventional port `6379` with
`socket_timeout 2`, shorter than the `5` of the other candidates. -/
theorem c3_fallback_always_three :
    ∀ env : EnvVars,
      2 ≤ (get_fallback_configs env).length ∧
      (get_fallback_configs env).length = 3 ∧
      (get_fallback_configs env).getLast? = some thirdFallback ∧
      thirdFallback.port = 6379 ∧
      thirdFallback.socket_timeout = 2 ∧
      thirdFallback.socket_timeout < DEFAULT_SETTINGS.socket_timeout ∧
      is_docker_setup = true := by
  intro env
  have hd : is_docker_setup = true := rfl
  refine ⟨?_, ?_, ?_, rfl, rfl, by decide, hd⟩
  · simp [get_fallback_configs, hd]
  · simp [get_fallback_configs, hd]
  · simp [get_fallback_configs, hd, List.getLast?]

theorem connectFallbacks_all_fail (w : World) (st : DBState) :
    ∀ (cs : List RedisParams), (∀ c ∈ cs, w.tryConn c = none) →
      connectFallbacks w st cs = ((false, st), cs.map Op.connect) := by
  intro cs
  induction cs with
  | nil => intro _; rfl
  | cons c rest ih =>
    intro hall
    have hc : w.tryConn c = none := hall c (List.mem_cons_self c rest)
    have hrest : ∀ c' ∈ rest, w.tryConn c' = none :=
      fun c' hc' => hall c' (List.mem_cons_of_mem c hc')
    simp only [connectFallbacks, _try_connect, hc]
    rw [if_neg (by simp)]
    rw [ih hrest]
    simp

/-- A world in which every connection attempt fails but pings on held
handles succeed (an old TCP connection can stay alive while fresh
connections are refused). -/
def wAllFail : World :=
  { tryConn := fun _ => none,
    ping := fun _ => true,
    keys := fun _ _ => .error (),
    hgetall := fun _ _ => .error () }

/-- A client that already holds handle `0` from an earlier successful
connect. -/
def stStale : DBState :=
  { redis_client := some 0, connection_params := DEFAULT_SETTINGS }

/-- A freshly constructed, never-connected client state. -/
def stNone : DBState :=
  { redis_client := none, connection_params := DEFAULT_SETTINGS }

/-- C4 counterexample: a previously connected client whose stale handle
still answers pings.  Every candidate connect-and-ping attempt fails, and
`_connect` duly returns `False` — but the old handle is retained
(`_try_connect` only assigns on success), so the client still reports
`is_connected() = True`, contradicting "afterwards the client is
disconnected, i.e. holds no active connection handle and `is_connected()`
returns false". -/
theorem c4_connect_cex :
    (_connect wAllFail {} stStale).1.1 = false ∧
    (_connect wAllFail {} stStale).1.2.redis_client = some 0 ∧
    (is_connected wAllFail (_connect wAllFail {} stStale).1.2).1 = true := by
  decide

/-- C4 (amended): if every candidate configuration fails its
connect-and-ping attempt, `_connect` (and hence `reconnect`) returns
`False` without raising and leaves the client state — in particular the
connection handle — exactly as it was; its trace is one connect attempt
per candidate.  Consequently a client that held no handle before the call
(e.g. one freshly constructed by `__init__`) is disconnected afterwards:
`is_connected()` returns false. -/
theorem c4_connect_all_fail :
    ∀ (w : World) (env : EnvVars) (st : DBState),
      w.tryConn st.connection_params = none →
      (∀ c ∈ get_fallback_configs env, w.tryConn c = none) →
      _connect w env st =
        ((false, st),
         Op.connect st.connection_params :: (get_fallback_configs env).map Op.connect) ∧
      reconnect w env st = _connect w env st ∧
      (st.redis_client = none → (is_connected w st).1 = false) := by
  intro w env st hp hall
  refine ⟨?_, rfl, ?_⟩
  · simp only [_connect, _try_connect, hp]
    rw [if_neg (by simp)]
    rw [connectFallbacks_all_fail w st (get_fallback_configs env) hall]
    rfl
  · intro hnone
    simp [is_connected, hnone]

/-- C4 witness: the amended statement evaluated on a fresh client in the
all-attempts-fail world. -/
theorem c4_connect_all_fail_witness :
    _connect wAllFail {} stNone =
      ((false, stNone),
       Op.connect stNone.connection_params :: (get_fallback_configs {}).map Op.connect) ∧
    reconnect wAllFail {} stNone = _connect wAllFail {} stNone ∧
    (is_connected wAllFail stNone).1 = false :=
  ⟨(c4_connect_all_fail wAllFail {} stNone rfl (fun _ _ => rfl)).1,
   (c4_connect_all_fail wAllFail {} stNone rfl (fun _ _ => rfl)).2.1,
   (c4_connect_all_fail wAllFail {} stNone rfl (fun _ _ => rfl)).2.2 rfl⟩

/-- C5: `get_option(symbol)` returns the empty mapping — the same value in
every case, so the cases are indistinguishable from the return value — when
the client is not connected (no handle, or a failing liveness probe), when
the store access raises, and when the key is absent (`hgetall` returns the
empty hash); being a total function, it propagates no store-level
exception. -/
theorem c5_get_option_empty :
    ∀ (w : World) (st : DBState) (s : String),
      (st.redis_client = none → (get_option w st s).1 = []) ∧
      (∀ hdl, st.redis_client = some hdl → w.ping hdl = false →
        (get_option w st s).1 = []) ∧
      (∀ hdl, st.redis_client = some hdl → w.ping hdl = true →
        w.hgetall hdl ("option:" ++ s) = .error () →
        (get_option w st s).1 = []) ∧
      (∀ hdl, st.redis_client = some hdl → w.ping hdl = true →
        w.hgetall hdl ("option:" ++ s) = .ok [] →
        (get_option w st s).1 = []) := by
  intro w st s
  refine ⟨?_, ?_, ?_, ?_⟩
  · intro hnone
    simp [get_option, hnone]
  · intro hdl hsome hping
    simp [get_option, hsome, hping]
  · intro hdl hsome hping herr
    simp [get_option, hsome, hping, herr]
  · intro hdl hsome hping hok
    simp [get_option, hsome, hping, hok]

/-- C5 witness: all four degraded cases evaluated concretely. -/
theorem c5_get_option_empty_witness :
    (get_option wAllFail stNone "BTC-29DEC23-50000-C").1 = [] ∧
    (get_option wAllFail stStale "BTC-29DEC23-50000-C").1 = [] :=
  ⟨(c5_get_option_empty wAllFail stNone "BTC-29DEC23-50000-C").1 rfl,
   (c5_get_option_empty wAllFail stStale "BTC-29DEC23-50000-C").2.2.1 0 rfl rfl rfl⟩

/-- C6: when the requested asset/expiry pair is not allowed by the current
document — in particular whenever the allow-list is empty — the ticker
handler produces the 404 not-allowed outcome with an empty store-operation
trace: no connection is attempted, no liveness probe and no query is issued
before the gate rejects. -/
theorem c6_ticker_reject_no_store_ops :
    ∀ (doc : DocState) (env : EnvVars) (w : World) (asset expiry : String),
      is_allowed doc asset expiry = false →
      get_ticker doc env w asset expiry =
        (TickerResult.httpErr 404
          ("Ticker/date combination " ++ asset ++ "/" ++ expiry ++ " is not available"),
         []) := by
  intro doc env w asset expiry h
  unfold get_ticker
  rw [if_pos h]

/-- C6 witness: scenario B of the specification — empty allow-list, request
for BTC/29DEC23 — rejected with 404 and an empty operation trace. -/
theorem c6_ticker_reject_no_store_ops_witness :
    get_ticker (DocState.ok []) {} wAllFail "BTC" "29DEC23" =
      (TickerResult.httpErr 404
        ("Ticker/date combination " ++ "BTC" ++ "/" ++ "29DEC23" ++ " is not available"),
       []) :=
  c6_ticker_reject_no_store_ops (DocState.ok []) {} wAllFail "BTC" "29DEC23" rfl

/-- A store with one BTC option record behind handle `7` (scenario A of the
specification). -/
def wDemo : World :=
  { tryConn := fun _ => some 7,
    ping := fun _ => true,
    keys := fun _ _ => .ok ["option:BTC-29DEC23-50000-C"],
    hgetall := fun _ _ => .ok [("symbol", "BTC-29DEC23-50000-C"), ("volume_24h", "150000")] }

def stDemo : DBState :=
  { redis_client := some 7, connection_params := DEFAULT_SETTINGS }

def recDemo : List (String × Value) :=
  _parse_option_data [("symbol", "BTC-29DEC23-50000-C"), ("volume_24h", "150000")]

/-- C7: every record returned by `get_options_by_expiry(expiry, asset)`
comes from a listed symbol containing the literal substring `-{expiry}-`,
and every hash fetch the call performs targets the key of such a symbol —
only symbols containing the substring are fetched and included. -/
theorem c7_expiry_filter :
    ∀ (w : World) (st : DBState) (expiry : String) (asset : Option String),
      (∀ opt ∈ (get_options_by_expiry w st expiry asset).1,
        ∃ s ∈ (get_all_symbols w st asset).1,
          strContains s ("-" ++ expiry ++ "-") = true ∧
          opt = (get_option w st s).1 ∧ opt ≠ []) ∧
      (∀ hdl k, Op.hgetall hdl k ∈ (get_options_by_expiry w st expiry asset).2 →
        ∃ s, strContains s ("-" ++ expiry ++ "-") = true ∧ k = "option:" ++ s) := by
  intro w st expiry asset
  constructor
  · intro opt hopt
    simp only [get_options_by_expiry] at hopt
    obtain ⟨s, hs, heq, hne⟩ := fetchAll_mem w st _ opt hopt
    have hm := List.mem_filter.mp hs
    exact ⟨s, hm.1, by simpa using hm.2, heq, hne⟩
  · intro hdl k hk
    simp only [get_options_by_expiry] at hk
    rcases List.mem_append.mp hk with h | h
    · exact absurd h (get_all_symbols_no_hgetall w st asset hdl k)
    · obtain ⟨s, hs, h1⟩ := fetchAll_ops w st _ hdl k h
      have hm := List.mem_filter.mp hs
      exact ⟨s, by simpa using hm.2, h1⟩

/-- C7 witness: the demo store record is returned for expiry `29DEC23`, and
the theorem produces its originating symbol. -/
theorem c7_expiry_filter_witness :
    ∃ s ∈ (get_all_symbols wDemo stDemo (some "BTC")).1,
      strContains s ("-" ++ "29DEC23" ++ "-") = true ∧
      recDemo = (get_option wDemo stDemo s).1 ∧ recDemo ≠ [] :=
  (c7_expiry_filter wDemo stDemo "29DEC23" (some "BTC")).1 recDemo (by decide)

/-- C8: `get_high_volume_options(min_volume, asset)` returns no record
whose `volume_24h` (read with default `0`) is strictly below the
threshold, and every returned record is drawn from
`get_options_by_asset(asset)` when an asset is given (for the falsy empty
asset that source equals `get_all_options()`), otherwise from
`get_all_options()`. -/
theorem c8_high_volume :
    ∀ (w : World) (st : DBState) (mv : Rat) (asset : Option String),
      (∀ opt ∈ (get_high_volume_options w st mv asset).1,
        ¬ recFloat opt "volume_24h" < mv) ∧
      (∀ a, asset = some a →
        ∀ opt ∈ (get_high_volume_options w st mv asset).1,
          opt ∈ (get_options_by_asset w st a).1) ∧
      (asset = none →
        ∀ opt ∈ (get_high_volume_options w st mv asset).1,
          opt ∈ (get_all_options w st).1) := by
  intro w st mv asset
  refine ⟨?_, ?_, ?_⟩
  · intro opt hopt
    simp only [get_high_volume_options] at hopt
    have h2 := (List.mem_filter.mp hopt).2
    have h3 : mv ≤ recFloat opt "volume_24h" := by simpa using h2
    exact not_lt.mpr h3
  · intro a ha opt hopt
    subst ha
    simp only [get_high_volume_options] at hopt
    by_cases hemp : a = ""
    · subst hemp
      rw [if_pos rfl] at hopt
      rw [get_options_by_asset_empty]
      exact (List.mem_filter.mp hopt).1
    · rw [if_neg hemp] at hopt
      exact (List.mem_filter.mp hopt).1
  · intro ha opt hopt
    subst ha
    simp only [get_high_volume_options] at hopt
    exact (List.mem_filter.mp hopt).1

/-- C8 witness: with threshold `100000` the demo record (volume `150000`)
is kept, is not below the threshold, and is drawn from
`get_options_by_asset("BTC")`. -/
theorem c8_high_volume_witness :
    ¬ recFloat recDemo "volume_24h" < 100000 ∧
    recDemo ∈ (get_options_by_asset wDemo stDemo "BTC").1 :=
  ⟨(c8_high_volume wDemo stDemo 100000 (some "BTC")).1 recDemo (by decide),
   (c8_high_volume wDemo stDemo 100000 (some "BTC")).2.1 "BTC" rfl recDemo (by decide)⟩

/-- C9: a non-empty raw field map always yields a record that contains the
`'symbol'` key (defaulted to `""` when absent from the raw map) and is
therefore non-empty; consequently the fetch loops of
`get_options_by_asset` and `get_all_options` never skip a symbol whose
stored hash is non-empty and whose fetch succeeded — a record is dropped
only when the store returned an empty map or the fetch failed. -/
theorem c9_record_nonempty_no_skip :
    ∀ (data : List (String × String)),
      (data.isEmpty = false →
        (_parse_option_data data).lookup "symbol"
          = some (Value.str ((data.lookup "symbol").getD "")) ∧
        _parse_option_data data ≠ []) ∧
      (∀ (w : World) (st : DBState) (hdl : Nat) (a s : String)
          (d : List (String × String)),
        st.redis_client = some hdl → w.ping hdl = true →
        w.hgetall hdl ("option:" ++ s) = .ok d → d.isEmpty = false →
        (s ∈ (get_all_symbols w st (some a)).1 →
          _parse_option_data d ∈ (get_options_by_asset w st a).1) ∧
        (s ∈ (get_all_symbols w st none).1 →
          _parse_option_data d ∈ (get_all_options w st).1)) := by
  intro data
  constructor
  · intro hne
    constructor
    · rw [parse_eq data hne, List.cons_append, lookup_cons, if_pos rfl]
    · rw [parse_eq data hne]
      exact List.append_ne_nil_of_left_ne_nil (List.cons_ne_nil _ _) _
  · intro w st hdl a s d hsome hping hok hdne
    have hg : (get_option w st s).1 = _parse_option_data d := by
      simp [get_option, hsome, hping, hok, hdne]
    have hparse : _parse_option_data d ≠ [] := by
      rw [parse_eq d hdne]
      exact List.append_ne_nil_of_left_ne_nil (List.cons_ne_nil _ _) _
    have hne2 : (get_option w st s).1.isEmpty = false := by
      rw [hg]
      cases hx : _parse_option_data d with
      | nil => exact absurd hx hparse
      | cons p rest => rfl
    constructor
    · intro hmem
      have := fetchAll_complete w st (get_all_symbols w st (some a)).1 s hmem hne2
      rw [hg] at this
      simpa [get_options_by_asset] using this
    · intro hmem
      have := fetchAll_complete w st (get_all_symbols w st none).1 s hmem hne2
      rw [hg] at this
      simpa [get_all_options] using this

/-- C9 witness: the symbol-key default on a concrete map, and the demo
record reaching the result of `get_options_by_asset`. -/
theorem c9_record_nonempty_no_skip_witness :
    _parse_option_data [("symbol", "X")] ≠ [] ∧
    _parse_option_data [("symbol", "BTC-29DEC23-50000-C"), ("volume_24h", "150000")]
      ∈ (get_options_by_asset wDemo stDemo "BTC").1 :=
  ⟨((c9_record_nonempty_no_skip [("symbol", "X")]).1 rfl).2,
   ((c9_record_nonempty_no_skip []).2 wDemo stDemo 7 "BTC" "BTC-29DEC23-50000-C"
      [("symbol", "BTC-29DEC23-50000-C"), ("volume_24h", "150000")]
      rfl rfl rfl rfl).1 (by decide)⟩

/-- C10: `get_all_symbols` maps `key.replace("option:", "")` over the
matching keys, and that replacement removes every occurrence of
`"option:"`, not only the leading namespace prefix: for a key
`"option:" ++ s` the returned entry equals `s` with all further
occurrences of `"option:"` inside `s` also deleted, hence it equals the
true symbol `s` exactly when `s` itself does not contain `"option:"`. -/
theorem c10_strip_replaces_all :
    ∀ (w : World) (st : DBState) (hdl : Nat) (ks : List String),
      st.redis_client = some hdl → w.ping hdl = true →
      w.keys hdl "option:*" = .ok ks →
      (get_all_symbols w st none).1 = ks.map stripOptionAll ∧
      ∀ s : String,
        stripOptionAll ("option:" ++ s) = stripOptionAll s ∧
        (stripOptionAll s = s ↔ strContains s "option:" = false) := by
  intro w st hdl ks hsome hping hkeys
  constructor
  · have hpat : symbolPattern none = "option:*" := rfl
    simp [get_all_symbols, hsome, hping, hpat, hkeys]
  · intro s
    constructor
    · show (⟨pyReplaceOption ("option:" ++ s).data⟩ : String) = ⟨pyReplaceOption s.data⟩
      have hd : ("option:" ++ s).data = optPat ++ s.data := String.data_append _ _
      rw [hd, pyReplaceOption_drop_leading]
    · constructor
      · intro h
        have h2 : pyReplaceOption s.data = s.data := congrArg String.data h
        exact (pyReplaceOption_eq_self_iff s.data).mp h2
      · intro h
        have h2 : pyReplaceOption s.data = s.data :=
          (pyReplaceOption_eq_self_iff s.data).mpr h
        show (⟨pyReplaceOption s.data⟩ : String) = s
        rw [h2]

/-- C10 witness: the demo key listing, and the concrete key
`"option:option:ABC"`: stripping it yields `"ABC"`, not the true symbol
`"option:ABC"`. -/
theorem c10_strip_replaces_all_witness :
    (get_all_symbols wDemo stDemo none).1
      = ["option:BTC-29DEC23-50000-C"].map stripOptionAll ∧
    stripOptionAll ("option:" ++ "option:ABC") = stripOptionAll "option:ABC" ∧
    (stripOptionAll "option:ABC" = "option:ABC" ↔
      strContains "option:ABC" "option:" = false) :=
  ⟨(c10_strip_replaces_all wDemo stDemo 7 ["option:BTC-29DEC23-50000-C"] rfl rfl rfl).1,
   ((c10_strip_replaces_all wDemo stDemo 7 ["option:BTC-29DEC23-50000-C"] rfl rfl rfl).2
      "option:ABC").1,
   ((c10_strip_replaces_all wDemo stDemo 7 ["option:BTC-29DEC23-50000-C"] rfl rfl rfl).2
      "option:ABC").2⟩
